import Mathlib

/-!
Verification of the schema-matching and accumulation logic of the
Excel/CSV compiler app (`src/app.py`).

Tables are modelled as an ordered list of column labels together with an
ordered list of rows; each row is a list of cells aligned positionally
with the columns.  Column labels are modelled as strings (the source
applies `str(...)` during normalization, so labels are strings from that
point on).  The pandas operations the source relies on are embedded
explicitly: column assignment (`df[name] = value`) overwrites an existing
column in place and otherwise appends a new column at the end;
row-wise concatenation (`pd.concat(..., ignore_index=True)`) appends the
second frame's rows after the first when the column sequences coincide.
-/

/-- A scalar cell value: a string, an integer, or a missing value. -/
inductive Cell where
  | str : String → Cell
  | num : Int → Cell
  | null : Cell
deriving DecidableEq, Repr

/-- A table: ordered column labels plus ordered rows of cells. -/
structure Table where
  cols : List String
  rows : List (List Cell)
deriving DecidableEq, Repr

/-- Python's `str.strip()`: remove leading and trailing whitespace. -/
def stripStr (s : String) : String :=
  String.mk (((s.data.dropWhile Char.isWhitespace).reverse.dropWhile
    Char.isWhitespace).reverse)

/-- Python's `str.lower()`: lowercase every character. -/
def lowerStr (s : String) : String :=
  String.mk (s.data.map Char.toLower)

/-- Python's `str.endswith(suffix)`. -/
def strEndsWith (s suffix : String) : Bool :=
  suffix.data.isSuffixOf s.data

/-- Index of the first column with the given label, if any. -/
def idxOf? (name : String) : List String → Option Nat
  | [] => none
  | c :: cs => if c = name then some 0 else (idxOf? name cs).map (· + 1)

/-- `df[name] = v` in pandas: overwrite the column `name` in place when it
exists, otherwise append a new column at the end filled with `v`. -/
def assignColumn (t : Table) (name : String) (v : Cell) : Table :=
  match idxOf? name t.cols with
  | some i => { cols := t.cols, rows := t.rows.map (fun r => r.set i v) }
  | none => { cols := t.cols ++ [name], rows := t.rows.map (fun r => r ++ [v]) }

/-- Value of row `r` (of a table with columns `cols`) at the column
labelled `c`; missing positions read as `Cell.null`. -/
def getCell (cols : List String) (r : List Cell) (c : String) : Cell :=
  match idxOf? c cols with
  | some i => r.getD i Cell.null
  | none => Cell.null

/-- `pd.concat([t1, t2], ignore_index=True)`: when the column sequences
coincide the rows are appended; otherwise the columns are unioned in
order of first appearance and each row is re-indexed against the union
(absent values read as null). -/
def concatTables (t1 t2 : Table) : Table :=
  if t1.cols = t2.cols then
    { cols := t1.cols, rows := t1.rows ++ t2.rows }
  else
    let cols := t1.cols ++ t2.cols.filter (fun c => !(t1.cols.contains c))
    { cols := cols
      rows := t1.rows.map (fun r => cols.map (getCell t1.cols r))
        ++ t2.rows.map (fun r => cols.map (getCell t2.cols r)) }

/-- `normalize_columns` (src/app.py:32): stringify each label and strip
surrounding whitespace; order preserved, no deduplication.  Labels are
already strings in this model, so stringification is the identity. -/
def normalize_columns (cols : List String) : List String :=
  cols.map (fun c => stripStr c)

/-- `cols_match` (src/app.py:37): exact match in the same order. -/
def cols_match (expected incoming : List String) : Bool :=
  expected == incoming

/-- `set(a) == set(b)` on lists of labels: mutual containment. -/
def setEq (a b : List String) : Bool :=
  a.all (fun x => b.contains x) && b.all (fun x => a.contains x)

/-- `diff_cols` (src/app.py:42): missing = expected labels absent from
incoming (expected order), extra = incoming labels absent from expected
(incoming order), order_issue = same label sets but different sequences. -/
def diff_cols (expected incoming : List String) :
    List String × List String × Bool :=
  let missing := expected.filter (fun c => !(incoming.contains c))
  let extra := incoming.filter (fun c => !(expected.contains c))
  let order_issue := setEq expected incoming && expected != incoming
  (missing, extra, order_issue)

/-- The session state (src/app.py:12-17): the locked expected schema,
the compiled table, and the list of accepted filenames. -/
structure AppState where
  expected_cols : Option (List String)
  compiled_df : Option Table
  uploaded_files : List String
deriving DecidableEq, Repr

/-- The initial session state: nothing seeded, nothing uploaded. -/
def initState : AppState :=
  { expected_cols := none, compiled_df := none, uploaded_files := [] }

/-- The "Reset / Clear all" handler (src/app.py:65-69): clears the
expected schema, the compiled table and the upload record. -/
def resetState (_s : AppState) : AppState :=
  { expected_cols := none, compiled_df := none, uploaded_files := [] }

/-- Outcome surfaced to the user by one upload event. -/
inductive UploadOutcome where
  | seeded : UploadOutcome
  | appended : UploadOutcome
  | mismatch : List String → List String → Bool → UploadOutcome
  | readError : String → UploadOutcome
deriving DecidableEq, Repr

/-- Optional provenance tagging (src/app.py:86-87 and 98-99):
`if add_source_col: df_new[source_col_name] = uploaded.name`. -/
def provApply (t : Table) (addSrc : Bool) (srcName fname : String) : Table :=
  if addSrc then assignColumn t srcName (Cell.str fname) else t

/-- One upload event after a successful read (src/app.py:81-125):
normalize the columns; seed when no schema is locked yet, append on an
exact match, reject (with the mismatch classification) otherwise. -/
def uploadStep (s : AppState) (df : Table) (fname : String)
    (addSrc : Bool) (srcName : String) : AppState × UploadOutcome :=
  let dfn : Table := { cols := normalize_columns df.cols, rows := df.rows }
  match s.expected_cols with
  | none =>
    let df2 := provApply dfn addSrc srcName fname
    ({ expected_cols := some dfn.cols
       compiled_df := some df2
       uploaded_files := s.uploaded_files ++ [fname] },
     UploadOutcome.seeded)
  | some expected =>
    if cols_match expected dfn.cols then
      let df2 := provApply dfn addSrc srcName fname
      let newCompiled :=
        match s.compiled_df with
        | some old => concatTables old df2
        | none => df2
      ({ expected_cols := s.expected_cols
         compiled_df := some newCompiled
         uploaded_files := s.uploaded_files ++ [fname] },
       UploadOutcome.appended)
    else
      let d := diff_cols expected dfn.cols
      (s, UploadOutcome.mismatch d.1 d.2.1 d.2.2)

/-- An uploaded file: its declared name and the table its bytes decode
to.  The byte-level CSV/Excel decoding itself is an external library
collaborator; only the extension dispatch is the program's logic. -/
structure UFile where
  name : String
  content : Table
deriving DecidableEq, Repr

/-- `read_any_table` (src/app.py:20-29): dispatch on the lowercased
filename suffix; `.csv`, `.xlsx` and `.xls` decode, anything else raises
"Unsupported file type". -/
def read_any_table (f : UFile) : Except String Table :=
  let name := lowerStr f.name
  if strEndsWith name ".csv" then Except.ok f.content
  else if strEndsWith name ".xlsx" || strEndsWith name ".xls" then Except.ok f.content
  else Except.error "Unsupported file type. Please upload .csv, .xlsx, or .xls"

/-- One full upload event (src/app.py:78-128): read the file, then run
the seed/append/reject logic; any read failure is reported without
touching the session state. -/
def handleUpload (s : AppState) (f : UFile)
    (addSrc : Bool) (srcName : String) : AppState × UploadOutcome :=
  match read_any_table f with
  | Except.error msg => (s, UploadOutcome.readError msg)
  | Except.ok df => uploadStep s df f.name addSrc srcName

/-- Iterating the state component of a rejected (or any) upload event. -/
def uploadNTimes (df : Table) (fname : String) (addSrc : Bool)
    (srcName : String) : Nat → AppState → AppState
  | 0, s => s
  | n + 1, s =>
    uploadNTimes df fname addSrc srcName n (uploadStep s df fname addSrc srcName).1

/-- A single-sheet spreadsheet: sheet name, header row, data rows. -/
structure Sheet where
  sheetName : String
  header : List String
  dataRows : List (List Cell)
deriving DecidableEq, Repr

/-- `to_excel_bytes` (src/app.py:51-56): one sheet named "compiled",
header row = the table's columns in order (`index=False`), data rows in
table row order.  The byte serialization is the external library; the
sheet structure is what the program determines. -/
def to_excel_sheet (df : Table) : Sheet :=
  { sheetName := "compiled", header := df.cols, dataRows := df.rows }

/-- The download filename (src/app.py:160): append `.xlsx` unless the
name already ends in `.xlsx` case-insensitively. -/
def downloadFileName (filename : String) : String :=
  if strEndsWith (lowerStr filename) ".xlsx" then filename
  else filename ++ ".xlsx"

/-! ## Helper lemmas -/

theorem idxOf?_eq_none_iff (name : String) (l : List String) :
    idxOf? name l = none ↔ name ∉ l := by
  induction l with
  | nil => simp [idxOf?]
  | cons c cs ih =>
    by_cases h : c = name
    · subst h
      simp [idxOf?]
    · simp only [idxOf?, if_neg h, Option.map_eq_none', ih, List.mem_cons]
      constructor
      · intro hn hmem
        rcases hmem with hmem | hmem
        · exact h hmem.symm
        · exact hn hmem
      · intro hn
        exact fun hmem => hn (Or.inr hmem)

theorem idxOf?_lt_length (name : String) (l : List String) (i : Nat)
    (h : idxOf? name l = some i) : i < l.length := by
  induction l generalizing i with
  | nil => simp [idxOf?] at h
  | cons c cs ih =>
    by_cases hc : c = name
    · simp only [idxOf?, if_pos hc, Option.some.injEq] at h
      subst h
      simp
    · simp only [idxOf?, if_neg hc, Option.map_eq_some'] at h
      rcases h with ⟨j, hj, rfl⟩
      have := ih j hj
      simp only [List.length_cons]
      omega

theorem idxOf?_append_self (name : String) (l : List String)
    (h : idxOf? name l = none) : idxOf? name (l ++ [name]) = some l.length := by
  induction l with
  | nil => simp [idxOf?]
  | cons c cs ih =>
    by_cases hc : c = name
    · simp [idxOf?, if_pos hc] at h
    · simp only [idxOf?, if_neg hc, Option.map_eq_none'] at h
      simp [idxOf?, if_neg hc, ih h]

theorem setEq_iff (a b : List String) :
    setEq a b = true ↔ ∀ x, x ∈ a ↔ x ∈ b := by
  simp only [setEq, Bool.and_eq_true, List.all_eq_true]
  constructor
  · rintro ⟨h1, h2⟩ x
    constructor
    · intro hx
      simpa using h1 x hx
    · intro hx
      simpa using h2 x hx
  · intro h
    constructor
    · intro x hx
      simpa using (h x).1 hx
    · intro x hx
      simpa using (h x).2 hx

/-- The columns of a table after optional provenance tagging, as a
function of the columns alone. -/
def provCols (cols : List String) (addSrc : Bool) (srcName : String) : List String :=
  if addSrc then
    match idxOf? srcName cols with
    | some _ => cols
    | none => cols ++ [srcName]
  else cols

theorem provApply_cols (t : Table) (addSrc : Bool) (srcName fname : String) :
    (provApply t addSrc srcName fname).cols = provCols t.cols addSrc srcName := by
  by_cases h : addSrc
  · simp only [provApply, provCols, h, if_true]
    cases hi : idxOf? srcName t.cols with
    | none => simp [assignColumn, hi]
    | some i => simp [assignColumn, hi]
  · simp [provApply, provCols, h]

theorem provApply_rows_length (t : Table) (addSrc : Bool) (srcName fname : String) :
    (provApply t addSrc srcName fname).rows.length = t.rows.length := by
  by_cases h : addSrc
  · simp only [provApply, h, if_true]
    cases hi : idxOf? srcName t.cols with
    | none => simp [assignColumn, hi]
    | some i => simp [assignColumn, hi]
  · simp [provApply, h]

theorem assignColumn_fills (t : Table) (name : String) (v : Cell)
    (hrect : ∀ r ∈ t.rows, r.length = t.cols.length) :
    ∀ r ∈ (assignColumn t name v).rows,
      getCell (assignColumn t name v).cols r name = v := by
  intro r hr
  cases hi : idxOf? name t.cols with
  | some i =>
    simp only [assignColumn, hi, List.mem_map] at hr
    rcases hr with ⟨r0, hr0, rfl⟩
    have hlen : i < r0.length := by
      rw [hrect r0 hr0]
      exact idxOf?_lt_length name t.cols i hi
    simp only [assignColumn, hi, getCell]
    simp [List.getD_eq_getElem?_getD, List.getElem?_set_self, hlen]
  | none =>
    simp only [assignColumn, hi, List.mem_map] at hr
    rcases hr with ⟨r0, hr0, rfl⟩
    simp only [assignColumn, hi, getCell, idxOf?_append_self name t.cols hi]
    rw [← hrect r0 hr0]
    simp [List.getD_eq_getElem?_getD]

theorem uploadStep_mismatch (s : AppState) (df : Table) (fname srcName : String)
    (addSrc : Bool) (exp : List String) (hs : s.expected_cols = some exp)
    (hm : cols_match exp (normalize_columns df.cols) = false) :
    uploadStep s df fname addSrc srcName =
      (s, UploadOutcome.mismatch (diff_cols exp (normalize_columns df.cols)).1
        (diff_cols exp (normalize_columns df.cols)).2.1
        (diff_cols exp (normalize_columns df.cols)).2.2) := by
  unfold uploadStep
  rw [hs]
  simp [hm]

theorem uploadStep_seed (s : AppState) (df : Table) (fname srcName : String)
    (addSrc : Bool) (hs : s.expected_cols = none) :
    uploadStep s df fname addSrc srcName =
      ({ expected_cols := some (normalize_columns df.cols)
         compiled_df := some (provApply
           { cols := normalize_columns df.cols, rows := df.rows } addSrc srcName fname)
         uploaded_files := s.uploaded_files ++ [fname] },
       UploadOutcome.seeded) := by
  unfold uploadStep
  rw [hs]

theorem uploadStep_append (s : AppState) (df old : Table) (fname srcName : String)
    (addSrc : Bool) (exp : List String) (hs : s.expected_cols = some exp)
    (hc : s.compiled_df = some old)
    (hm : cols_match exp (normalize_columns df.cols) = true) :
    uploadStep s df fname addSrc srcName =
      ({ expected_cols := some exp
         compiled_df := some (concatTables old (provApply
           { cols := normalize_columns df.cols, rows := df.rows } addSrc srcName fname))
         uploaded_files := s.uploaded_files ++ [fname] },
       UploadOutcome.appended) := by
  unfold uploadStep
  rw [hs, hc]
  simp [hm]

/-! ## Claim theorems -/

/-- C1: for every seeded state and every incoming table whose normalized
column sequence differs from the expected schema, the append reports a
mismatch and leaves the whole session state — in particular the compiled
table and the expected schema — unchanged, and repeating the rejected
append any number of times leaves the state identical. -/
theorem append_reject_atomic (s : AppState) (df : Table) (fname srcName : String)
    (addSrc : Bool) (exp : List String)
    (hs : s.expected_cols = some exp)
    (hm : normalize_columns df.cols ≠ exp) :
    (uploadStep s df fname addSrc srcName).2 =
      UploadOutcome.mismatch (diff_cols exp (normalize_columns df.cols)).1
        (diff_cols exp (normalize_columns df.cols)).2.1
        (diff_cols exp (normalize_columns df.cols)).2.2 ∧
    (uploadStep s df fname addSrc srcName).1.compiled_df = s.compiled_df ∧
    (uploadStep s df fname addSrc srcName).1.expected_cols = s.expected_cols ∧
    ∀ n : Nat, uploadNTimes df fname addSrc srcName n s = s := by
  have hmatch : cols_match exp (normalize_columns df.cols) = false := by
    simp only [cols_match, beq_eq_false_iff_ne, ne_eq]
    exact fun h => hm h.symm
  have hstep := uploadStep_mismatch s df fname srcName addSrc exp hs hmatch
  refine ⟨by rw [hstep], by rw [hstep], by rw [hstep], ?_⟩
  intro n
  induction n with
  | zero => rfl
  | succ k ih =>
    rw [uploadNTimes, hstep]
    exact ih

/-- A concrete seeded session state used to instantiate hypotheses. -/
def exSeededState : AppState :=
  { expected_cols := some ["id", "name"],
    compiled_df := some { cols := ["id", "name"], rows := [[Cell.num 1, Cell.str "a"]] },
    uploaded_files := ["f1.csv"] }

/-- A concrete incoming table with the expected columns in reversed order. -/
def exReorderedTable : Table :=
  { cols := ["name", "id"], rows := [] }

/-- Witness for C1 at a concrete seeded state and a reordered file. -/
theorem append_reject_atomic_witness :
    exSeededState.expected_cols = some ["id", "name"] ∧
    normalize_columns exReorderedTable.cols ≠ ["id", "name"] ∧
    ((uploadStep exSeededState exReorderedTable "f2.csv" true "source_file").2 =
      UploadOutcome.mismatch
        (diff_cols ["id", "name"] (normalize_columns exReorderedTable.cols)).1
        (diff_cols ["id", "name"] (normalize_columns exReorderedTable.cols)).2.1
        (diff_cols ["id", "name"] (normalize_columns exReorderedTable.cols)).2.2 ∧
     (uploadStep exSeededState exReorderedTable "f2.csv" true "source_file").1.compiled_df =
      exSeededState.compiled_df ∧
     (uploadStep exSeededState exReorderedTable "f2.csv" true "source_file").1.expected_cols =
      exSeededState.expected_cols ∧
     ∀ n : Nat, uploadNTimes exReorderedTable "f2.csv" true "source_file" n exSeededState =
      exSeededState) :=
  ⟨rfl, by decide,
    append_reject_atomic exSeededState exReorderedTable "f2.csv" "source_file"
      true ["id", "name"] rfl (by decide)⟩

/-- C2: the mismatch classifier returns missing = expected labels absent
from incoming in expected order, extra = incoming labels absent from
expected in incoming order, and reordered iff the two sequences have the
same label set but differ as sequences; consequently reordered is never
reported together with non-empty missing or extra. -/
theorem diff_cols_classification (expected incoming : List String) :
    (diff_cols expected incoming).1 =
      expected.filter (fun c => decide (c ∉ incoming)) ∧
    (diff_cols expected incoming).2.1 =
      incoming.filter (fun c => decide (c ∉ expected)) ∧
    ((diff_cols expected incoming).2.2 = true ↔
      (∀ x, x ∈ expected ↔ x ∈ incoming) ∧ expected ≠ incoming) ∧
    ((diff_cols expected incoming).2.2 = true →
      (diff_cols expected incoming).1 = [] ∧ (diff_cols expected incoming).2.1 = []) := by
  refine ⟨?_, ?_, ?_, ?_⟩
  · simp only [diff_cols]
    refine List.filter_congr ?_
    intro a _
    simp
  · simp only [diff_cols]
    refine List.filter_congr ?_
    intro a _
    simp
  · simp only [diff_cols, Bool.and_eq_true, bne_iff_ne, ne_eq, setEq_iff]
  · intro h
    simp only [diff_cols, Bool.and_eq_true, bne_iff_ne, ne_eq, setEq_iff] at h
    rcases h with ⟨hset, _⟩
    constructor
    · simp only [diff_cols, List.filter_eq_nil_iff]
      intro a ha
      simp [(hset a).1 ha]
    · simp only [diff_cols, List.filter_eq_nil_iff]
      intro a ha
      simp [(hset a).2 ha]

/-- Witness for C2 at a reordered pair: reordered is reported and both
missing and extra are empty. -/
theorem diff_cols_classification_witness :
    (diff_cols ["id", "name"] ["name", "id"]).2.2 = true ∧
    (diff_cols ["id", "name"] ["name", "id"]).1 = [] ∧
    (diff_cols ["id", "name"] ["name", "id"]).2.1 = [] :=
  ⟨by decide,
    (diff_cols_classification ["id", "name"] ["name", "id"]).2.2.2 (by decide)⟩

/-- C3: the comparison reports an exact match iff the two label
sequences are element-wise equal, and a sequence compared with itself is
an exact match with empty missing, empty extra and no reorder flag. -/
theorem cols_match_exact (expected incoming : List String) :
    (cols_match expected incoming = true ↔ expected = incoming) ∧
    cols_match expected expected = true ∧
    diff_cols expected expected = ([], [], false) := by
  refine ⟨by simp [cols_match], by simp [cols_match], ?_⟩
  simp only [diff_cols, Prod.mk.injEq]
  refine ⟨?_, ?_, ?_⟩
  · simp [List.filter_eq_nil_iff]
  · simp [List.filter_eq_nil_iff]
  · simp

/-- C10: a schema-mismatch rejection also leaves the upload record (the
list of accepted filenames) unchanged — a filename is recorded only on
seed or on an accepted append, never on the rejection path. -/
theorem reject_upload_record_unchanged (s : AppState) (df : Table)
    (fname srcName : String) (addSrc : Bool) (exp : List String)
    (hs : s.expected_cols = some exp)
    (hm : normalize_columns df.cols ≠ exp) :
    (uploadStep s df fname addSrc srcName).1.uploaded_files = s.uploaded_files := by
  have hmatch : cols_match exp (normalize_columns df.cols) = false := by
    simp only [cols_match, beq_eq_false_iff_ne, ne_eq]
    exact fun h => hm h.symm
  rw [uploadStep_mismatch s df fname srcName addSrc exp hs hmatch]

/-- A concrete incoming table carrying an extra column. -/
def exExtraColTable : Table :=
  { cols := ["id", "name", "notes"], rows := [] }

/-- Witness for C10 at a concrete seeded state and an extra-column file. -/
theorem reject_upload_record_unchanged_witness :
    exSeededState.expected_cols = some ["id", "name"] ∧
    normalize_columns exExtraColTable.cols ≠ ["id", "name"] ∧
    (uploadStep exSeededState exExtraColTable "f2.csv" true "source_file").1.uploaded_files =
      exSeededState.uploaded_files :=
  ⟨rfl, by decide,
    reject_upload_record_unchanged exSeededState exExtraColTable
      "f2.csv" "source_file" true ["id", "name"] rfl (by decide)⟩

/-- A first upload whose data already contains a column named like the
default provenance column. -/
def exCollisionTable : Table :=
  { cols := ["source_file", "id"], rows := [[Cell.str "x", Cell.num 1]] }

/-- C4 counterexample: seeding `exCollisionTable` with provenance
enabled under the name "source_file" does not append a provenance
column — the compiled table keeps its two columns and the pre-existing
"source_file" column is overwritten in place with the filename. -/
theorem seed_provenance_counterexample :
    (uploadStep initState exCollisionTable "f1.csv" true "source_file").1.compiled_df =
      some { cols := ["source_file", "id"], rows := [[Cell.str "f1.csv", Cell.num 1]] } ∧
    (uploadStep initState exCollisionTable "f1.csv" true "source_file").1.compiled_df ≠
      some { cols := normalize_columns exCollisionTable.cols ++ ["source_file"],
             rows := exCollisionTable.rows.map (fun row => row ++ [Cell.str "f1.csv"]) } := by
  constructor
  · decide
  · decide

/-- C4 (amended): seeding locks the expected schema to the normalized
columns before provenance is applied, records the filename, and stores
the table as the compiled table; when provenance is enabled a column
with the configured name is appended filled with the filename — unless
a normalized column of that name already exists, in which case that
column is overwritten in place with the filename. -/
theorem seed_spec (s : AppState) (df : Table) (fname srcName : String)
    (addSrc : Bool) (hs : s.expected_cols = none) :
    (uploadStep s df fname addSrc srcName).1.expected_cols =
      some (normalize_columns df.cols) ∧
    (uploadStep s df fname addSrc srcName).2 = UploadOutcome.seeded ∧
    (uploadStep s df fname addSrc srcName).1.uploaded_files =
      s.uploaded_files ++ [fname] ∧
    (addSrc = false →
      (uploadStep s df fname addSrc srcName).1.compiled_df =
        some { cols := normalize_columns df.cols, rows := df.rows }) ∧
    (addSrc = true → srcName ∉ normalize_columns df.cols →
      (uploadStep s df fname addSrc srcName).1.compiled_df =
        some { cols := normalize_columns df.cols ++ [srcName],
               rows := df.rows.map (fun row => row ++ [Cell.str fname]) }) ∧
    (addSrc = true → srcName ∈ normalize_columns df.cols →
      (uploadStep s df fname addSrc srcName).1.compiled_df =
        some { cols := normalize_columns df.cols,
               rows := df.rows.map (fun row =>
                 row.set ((idxOf? srcName (normalize_columns df.cols)).getD 0)
                   (Cell.str fname)) }) := by
  have hstep := uploadStep_seed s df fname srcName addSrc hs
  refine ⟨by rw [hstep], by rw [hstep], by rw [hstep], ?_, ?_, ?_⟩
  · intro ha
    subst ha
    rw [hstep]
    simp [provApply]
  · intro ha hmem
    subst ha
    rw [hstep]
    have hi : idxOf? srcName (normalize_columns df.cols) = none :=
      (idxOf?_eq_none_iff _ _).mpr hmem
    simp [provApply, assignColumn, hi]
  · intro ha hmem
    subst ha
    rw [hstep]
    cases hi : idxOf? srcName (normalize_columns df.cols) with
    | none => exact absurd hmem ((idxOf?_eq_none_iff _ _).mp hi)
    | some i => simp [provApply, assignColumn, hi]

/-- The first upload of Scenario 1: columns id and name, two rows. -/
def exScenario1Table : Table :=
  { cols := ["id", "name"],
    rows := [[Cell.num 1, Cell.str "a"], [Cell.num 2, Cell.str "b"]] }

/-- Witness for C4 (amended) at Scenario 1: seeding the two-row id/name
table with provenance on appends a source_file column tagged f1.csv. -/
theorem seed_spec_witness :
    initState.expected_cols = none ∧
    "source_file" ∉ normalize_columns exScenario1Table.cols ∧
    (uploadStep initState exScenario1Table "f1.csv" true "source_file").1.compiled_df =
      some { cols := normalize_columns exScenario1Table.cols ++ ["source_file"],
             rows := exScenario1Table.rows.map (fun row => row ++ [Cell.str "f1.csv"]) } :=
  ⟨rfl, by decide,
    (seed_spec initState exScenario1Table "f1.csv" "source_file" true rfl).2.2.2.2.1
      rfl (by decide)⟩

/-- C5: when a seeded state (whose compiled table carries the
provenance-adjusted schema) receives a table whose normalized columns
exactly match the expected schema, the upload is accepted: the
provenance transform is applied (when enabled, every new row carries the
filename at the provenance column), the new rows are concatenated after
the existing compiled rows in file order, and the filename is appended
to the upload record. -/
theorem append_accept_spec (s : AppState) (df old : Table) (fname srcName : String)
    (addSrc : Bool) (exp : List String)
    (hs : s.expected_cols = some exp)
    (hc : s.compiled_df = some old)
    (hmatch : normalize_columns df.cols = exp)
    (hcols : old.cols = provCols exp addSrc srcName)
    (hrect : ∀ r ∈ df.rows, r.length = df.cols.length) :
    (uploadStep s df fname addSrc srcName).2 = UploadOutcome.appended ∧
    (uploadStep s df fname addSrc srcName).1.expected_cols = some exp ∧
    (uploadStep s df fname addSrc srcName).1.uploaded_files =
      s.uploaded_files ++ [fname] ∧
    (uploadStep s df fname addSrc srcName).1.compiled_df =
      some { cols := old.cols,
             rows := old.rows ++
               (provApply { cols := exp, rows := df.rows } addSrc srcName fname).rows } ∧
    (provApply { cols := exp, rows := df.rows } addSrc srcName fname).rows.length =
      df.rows.length ∧
    (addSrc = true →
      ∀ r ∈ (provApply { cols := exp, rows := df.rows } addSrc srcName fname).rows,
        getCell old.cols r srcName = Cell.str fname) := by
  have hm : cols_match exp (normalize_columns df.cols) = true := by
    simp [cols_match, hmatch]
  have hstep := uploadStep_append s df old fname srcName addSrc exp hs hc hm
  rw [hmatch] at hstep
  have hdf2cols : (provApply { cols := exp, rows := df.rows } addSrc srcName fname).cols =
      old.cols := by
    rw [provApply_cols]
    exact hcols.symm
  have hconcat : concatTables old (provApply { cols := exp, rows := df.rows } addSrc srcName fname) =
      { cols := old.cols,
        rows := old.rows ++ (provApply { cols := exp, rows := df.rows } addSrc srcName fname).rows } := by
    unfold concatTables
    rw [if_pos hdf2cols.symm]
  refine ⟨by rw [hstep], by rw [hstep], by rw [hstep], ?_,
    provApply_rows_length _ _ _ _, ?_⟩
  · rw [hstep]
    simp only [hconcat]
  · intro ha r hr
    subst ha
    have hrect2 : ∀ row ∈ ({ cols := exp, rows := df.rows } : Table).rows,
        row.length = ({ cols := exp, rows := df.rows } : Table).cols.length := by
      intro row hrow
      have : exp.length = df.cols.length := by
        rw [← hmatch]
        simp [normalize_columns]
      simpa [this] using hrect row hrow
    have hfill := assignColumn_fills { cols := exp, rows := df.rows } srcName
      (Cell.str fname) hrect2 r (by simpa [provApply] using hr)
    have hcols2 : (assignColumn { cols := exp, rows := df.rows } srcName
        (Cell.str fname)).cols = old.cols := by
      simpa [provApply] using hdf2cols
    rw [← hcols2]
    exact hfill

/-- The compiled table after Scenario 1 (two rows tagged f1.csv). -/
def exCompiledTable : Table :=
  { cols := ["id", "name", "source_file"],
    rows := [[Cell.num 1, Cell.str "a", Cell.str "f1.csv"],
             [Cell.num 2, Cell.str "b", Cell.str "f1.csv"]] }

/-- The session state after Scenario 1 (one accepted file, provenance
column appended). -/
def exCompiledState : AppState :=
  { expected_cols := some ["id", "name"],
    compiled_df := some exCompiledTable,
    uploaded_files := ["f1.csv"] }

/-- The second upload of Scenario 3: matching columns, one row. -/
def exAppendTable : Table :=
  { cols := ["id", "name"], rows := [[Cell.num 3, Cell.str "c"]] }

/-- Witness for C5 at Scenario 3: the matching one-row file is accepted
and its filename is recorded after the first one. -/
theorem append_accept_spec_witness :
    exCompiledState.expected_cols = some ["id", "name"] ∧
    exCompiledState.compiled_df = some exCompiledTable ∧
    normalize_columns exAppendTable.cols = ["id", "name"] ∧
    exCompiledTable.cols = provCols ["id", "name"] true "source_file" ∧
    (uploadStep exCompiledState exAppendTable "f2.csv" true "source_file").2 =
      UploadOutcome.appended ∧
    (uploadStep exCompiledState exAppendTable "f2.csv" true "source_file").1.uploaded_files =
      exCompiledState.uploaded_files ++ ["f2.csv"] :=
  ⟨rfl, rfl, by decide, by decide,
    (append_accept_spec exCompiledState exAppendTable exCompiledTable
      "f2.csv" "source_file" true ["id", "name"] rfl rfl (by decide) (by decide)
      (by decide)).1,
    (append_accept_spec exCompiledState exAppendTable exCompiledTable
      "f2.csv" "source_file" true ["id", "name"] rfl rfl (by decide) (by decide)
      (by decide)).2.2.1⟩

/-- C6: the table reader returns the decoded table exactly when the
lowercased filename ends in .csv, .xlsx or .xls, and fails with the
unsupported-format error for any other suffix; on that failure the
session state is left untouched, so the accumulator is never reached. -/
theorem read_dispatch (s : AppState) (f : UFile) (addSrc : Bool) (srcName : String) :
    ((strEndsWith (lowerStr f.name) ".csv" || strEndsWith (lowerStr f.name) ".xlsx" ||
        strEndsWith (lowerStr f.name) ".xls") = true →
      read_any_table f = Except.ok f.content) ∧
    ((strEndsWith (lowerStr f.name) ".csv" || strEndsWith (lowerStr f.name) ".xlsx" ||
        strEndsWith (lowerStr f.name) ".xls") = false →
      read_any_table f =
        Except.error "Unsupported file type. Please upload .csv, .xlsx, or .xls" ∧
      (handleUpload s f addSrc srcName).1 = s ∧
      (handleUpload s f addSrc srcName).2 =
        UploadOutcome.readError
          "Unsupported file type. Please upload .csv, .xlsx, or .xls") := by
  constructor
  · intro h
    unfold read_any_table
    by_cases hc : strEndsWith (lowerStr f.name) ".csv"
    · simp [hc]
    · simp only [Bool.or_eq_true] at h
      rcases h with (h | h) | h
      · exact absurd h hc
      · simp [hc, h]
      · simp [hc, h]
  · intro h
    simp only [Bool.or_eq_false_iff] at h
    obtain ⟨⟨h1, h2⟩, h3⟩ := h
    have hr : read_any_table f =
        Except.error "Unsupported file type. Please upload .csv, .xlsx, or .xls" := by
      unfold read_any_table
      simp [h1, h2, h3]
    refine ⟨hr, ?_, ?_⟩ <;> simp [handleUpload, hr]

/-- A file whose suffix is none of csv, xlsx, xls. -/
def exUnsupportedFile : UFile :=
  { name := "notes.txt", content := exScenario1Table }

/-- Witness for C6 at a .txt upload: rejected with the unsupported-format
error and the session state untouched. -/
theorem read_dispatch_witness :
    (strEndsWith (lowerStr exUnsupportedFile.name) ".csv" ||
      strEndsWith (lowerStr exUnsupportedFile.name) ".xlsx" ||
      strEndsWith (lowerStr exUnsupportedFile.name) ".xls") = false ∧
    read_any_table exUnsupportedFile =
      Except.error "Unsupported file type. Please upload .csv, .xlsx, or .xls" ∧
    (handleUpload initState exUnsupportedFile true "source_file").1 = initState :=
  ⟨by decide,
    ((read_dispatch initState exUnsupportedFile true "source_file").2 (by decide)).1,
    ((read_dispatch initState exUnsupportedFile true "source_file").2 (by decide)).2.1⟩

/-- C7: reset clears the expected schema, the compiled table and the
upload record back to the empty state, is idempotent, and an upload
after reset behaves exactly as a first-ever upload: it re-seeds the
schema from the new file. -/
theorem reset_spec (s : AppState) (f : UFile) (t : Table) (addSrc : Bool)
    (srcName : String) (hread : read_any_table f = Except.ok t) :
    resetState s = initState ∧
    (resetState s).expected_cols = none ∧
    (resetState s).compiled_df = none ∧
    (resetState s).uploaded_files = [] ∧
    resetState (resetState s) = resetState s ∧
    handleUpload (resetState s) f addSrc srcName =
      handleUpload initState f addSrc srcName ∧
    (handleUpload (resetState s) f addSrc srcName).1.expected_cols =
      some (normalize_columns t.cols) := by
  refine ⟨rfl, rfl, rfl, rfl, rfl, rfl, ?_⟩
  show (handleUpload initState f addSrc srcName).1.expected_cols = _
  unfold handleUpload
  rw [hread]
  show (uploadStep initState t f.name addSrc srcName).1.expected_cols = _
  rw [uploadStep_seed initState t f.name srcName addSrc rfl]

/-- A supported concrete upload used to instantiate C7. -/
def exCsvFile : UFile :=
  { name := "again.csv", content := exScenario1Table }

/-- Witness for C7: after reset of a non-empty state, uploading a csv
file re-seeds the schema from its columns. -/
theorem reset_spec_witness :
    read_any_table exCsvFile = Except.ok exScenario1Table ∧
    resetState exCompiledState = initState ∧
    (handleUpload (resetState exCompiledState) exCsvFile true "source_file").1.expected_cols =
      some (normalize_columns exScenario1Table.cols) :=
  ⟨rfl,
    (reset_spec exCompiledState exCsvFile exScenario1Table true "source_file" rfl).1,
    (reset_spec exCompiledState exCsvFile exScenario1Table true "source_file" rfl).2.2.2.2.2.2⟩

/-- C8: normalization stringifies and strips each label in place: the
output has the same length as the input and its i-th element is the
stripped form of the i-th input label; no deduplication happens, so
duplicate normalized labels pass through. -/
theorem normalize_columns_spec (cols : List String) :
    (normalize_columns cols).length = cols.length ∧
    (∀ i, i < cols.length →
      (normalize_columns cols).getD i "" = stripStr (cols.getD i "")) ∧
    normalize_columns cols = cols.map stripStr := by
  refine ⟨by simp [normalize_columns], ?_, rfl⟩
  intro i hi
  simp [normalize_columns, List.getD_eq_getElem?_getD, List.getElem?_map, hi]

/-- Witness for C8 on a list with duplicate labels after stripping. -/
theorem normalize_columns_spec_witness :
    0 < 2 ∧
    (normalize_columns [" id", "id "]).getD 0 "" = stripStr ([" id", "id "].getD 0 "") ∧
    normalize_columns [" id", "id "] = ["id", "id"] :=
  ⟨by decide, (normalize_columns_spec [" id", "id "]).2.1 0 (by decide), by decide⟩

/-- C9: export produces a single sheet named "compiled" whose header is
the table's columns in order and whose data rows are the table's rows in
order; the download name has ".xlsx" appended exactly when the supplied
name does not already end in ".xlsx" case-insensitively. -/
theorem export_spec (df : Table) (filename : String) :
    (to_excel_sheet df).sheetName = "compiled" ∧
    (to_excel_sheet df).header = df.cols ∧
    (to_excel_sheet df).dataRows = df.rows ∧
    (strEndsWith (lowerStr filename) ".xlsx" = true →
      downloadFileName filename = filename) ∧
    (downloadFileName filename = filename ++ ".xlsx" ↔
      strEndsWith (lowerStr filename) ".xlsx" = false) := by
  refine ⟨rfl, rfl, rfl, ?_, ?_⟩
  · intro h
    simp [downloadFileName, h]
  · by_cases h : strEndsWith (lowerStr filename) ".xlsx"
    · constructor
      · intro heq
        simp only [downloadFileName, h, if_true] at heq
        have hlen := congrArg String.length heq
        rw [String.length_append] at hlen
        have h5 : (".xlsx" : String).length = 5 := rfl
        rw [h5] at hlen
        omega
      · intro hf
        rw [h] at hf
        simp at hf
    · constructor
      · intro _
        simpa using h
      · intro _
        simp [downloadFileName, h]

/-- Witness for C9 at a download name lacking the extension. -/
theorem export_spec_witness :
    strEndsWith (lowerStr "report") ".xlsx" = false ∧
    downloadFileName "report" = "report" ++ ".xlsx" ∧
    (to_excel_sheet exScenario1Table).sheetName = "compiled" :=
  ⟨by decide, (export_spec exScenario1Table "report").2.2.2.2.mpr (by decide),
    (export_spec exScenario1Table "report").1⟩
